import Mathlib

/-!
Shallow embedding of the Express/SWAPI aggregation service in `src/index.js`
(muellerluke/code-challenge).  Upstream HTTP is modelled by explicit functions:
a page fetch `Nat → Option (PagedEnvelope α)` (`none` = rejected fetch) and a resident lookup `String → Option String` (`none` = transport failure or non-ok
status, `some name` = the `name` field of the fetched record).  JavaScript
arrays are Lean lists; `Promise.all` is an order-preserving sequencing of
`Option` values.
-/

namespace CodeChallenge

/-- One SWAPI person record: the three fields the service can sort on, plus an
opaque abstraction of every other upstream field (untouched by the service). -/
structure Person where
  name : String
  height : String
  mass : String
  extra : Nat
deriving DecidableEq

/-- One SWAPI planet record: the `residents` link list that the service
rewrites, plus an opaque abstraction of every other field. -/
structure Planet where
  residents : List String
  rest : String
deriving DecidableEq

/-- The paginated envelope returned by one upstream page request
(`count`, `results`; `next` is unused by the code). -/
structure PagedEnvelope (α : Type) where
  count : Nat
  results : List α
deriving DecidableEq

/-- The allow-list `VALID_SORT_BY` from src/index.js line 32. -/
def VALID_SORT_BY : List String := ["name", "height", "mass"]

/-- The allow-list `VALID_SORT_ORDER` from src/index.js line 33. -/
def VALID_SORT_ORDER : List String := ["asc", "desc"]

/-- Computes `Math.ceil(count / SWAPI_PAGE_SIZE) - 1` (src/index.js line 43) for a
positive page size `S`.  Nat subtraction agrees with the JS guard
`remainingPages > 0`: the JS value can be `-1` (when `count = 0`), and both
`-1` and the truncated `0` fail the guard. -/
def remainingPagesCount (count S : Nat) : Nat := (count + S - 1) / S - 1

/-- Model of `Promise.all`: joins results by original request index (never by
completion order), and fails as a whole if any element fails. -/
def seqOptions {β : Type} : List (Option β) → Option (List β)
  | [] => some []
  | o :: os => do
    let x ← o
    let xs ← seqOptions os
    pure (x :: xs)

/-- Embedding of `fetchAllPages` (src/index.js lines 36-54): fetch page 1, learn `count`,
fetch pages `2 .. remainingPages + 1` concurrently, concatenate in page order.
A `none` from `fetchPage` is a rejected fetch, which the surrounding
`await` / `Promise.all` propagates to the whole call. -/
def fetchAllPages {α : Type} (fetchPage : Nat → Option (PagedEnvelope α))
    (S : Nat) : Option (List α) := do
  let initialData ← fetchPage 1
  let count := initialData.count
  let results := initialData.results
  let remainingPages := remainingPagesCount count S
  if remainingPages > 0 then
    let data ← seqOptions ((List.range remainingPages).map fun i => fetchPage (i + 2))
    pure (results ++ (data.map fun page => page.results).flatten)
  else
    pure results

/-- The number of upstream page requests `fetchAllPages` issues: one for
page 1 and, when page 1 succeeds, one per remaining page (`Promise.all`
issues every request even if some of them fail). -/
def fetchAllCalls {α : Type} (fetchPage : Nat → Option (PagedEnvelope α))
    (S : Nat) : Nat :=
  match fetchPage 1 with
  | none => 1
  | some e =>
    1 + (if remainingPagesCount e.count S > 0 then remainingPagesCount e.count S else 0)

/-- A well-formed paginated upstream for ground-truth collection `l` and page
size `S`: page `n` (1-based) serves the slice `l[(n-1)*S .. n*S)` and reports
`count = l.length` (the §6 upstream contract). -/
def pagedUpstream {α : Type} (l : List α) (S : Nat) :
    Nat → Option (PagedEnvelope α) :=
  fun page => some ⟨l.length, (l.drop ((page - 1) * S)).take S⟩

/-- JS `Array.prototype.map` / `flatMap` callback index, starting at `k`. -/
def indexedFrom {α : Type} (k : Nat) : List α → List (Nat × α)
  | [] => []
  | x :: xs => (k, x) :: indexedFrom (k + 1) xs

/-- Embedding of `allResidentUrls` (src/index.js lines 59-61): every resident URL
of every planet, tagged with the index of its planet, in planet-then-list order. -/
def allResidentUrls (planets : List Planet) : List (Nat × String) :=
  (indexedFrom 0 planets).flatMap fun ip => ip.2.residents.map fun url => (ip.1, url)

/-- The sequence of upstream lookups the resolver issues: one `fetch(url)` per
element of `allResidentUrls` (src/index.js line 66). -/
def residentRequests (planets : List Planet) : List String :=
  (allResidentUrls planets).map fun ip => ip.2

/-- One resident lookup with its error handling (src/index.js lines 64-77):
a rejected fetch or a non-ok status degrades to `"Unknown"`. -/
def resolveTok (lookup : String → Option String) (url : String) : String :=
  (lookup url).getD "Unknown"

/-- Embedding of `residentResults` (src/index.js line 79): `Promise.all` keeps the original
index order, so this is `allResidentUrls` with each URL resolved. -/
def residentResults (lookup : String → Option String) (planets : List Planet) :
    List (Nat × String) :=
  (allResidentUrls planets).map fun ip => (ip.1, resolveTok lookup ip.2)

/-- The `reduce` grouping step (src/index.js lines 82-86): an object mapping a
planet index to the names pushed for it, in arrival order; a missing key reads
as `[]`, matching `residentsByPlanet[index] || []`. -/
def groupByPlanet (rs : List (Nat × String)) : Nat → List String :=
  rs.foldl (fun acc r => fun j => if j = r.1 then acc j ++ [r.2] else acc j)
    (fun _ => [])

/-- Embedding of `fetchResidentsWithErrorHandling` (src/index.js lines 57-93). -/
def fetchResidentsWithErrorHandling (lookup : String → Option String)
    (planets : List Planet) : List Planet :=
  let residentsByPlanet := groupByPlanet (residentResults lookup planets)
  (indexedFrom 0 planets).map fun ip => { ip.2 with residents := residentsByPlanet ip.1 }

/-- Model of `String.prototype.localeCompare` as code-point lexicographic
comparison (the default-locale collation abstracted to the total lexicographic
order on strings): negative / zero / positive exactly as the comparator
contract requires. -/
def localeCompare (a b : String) : Int :=
  if a < b then -1 else if b < a then 1 else 0

/-- Dynamic field access `a[sortBy]` for the validated sort fields. -/
def personField (sortBy : String) (p : Person) : String :=
  if sortBy = "name" then p.name
  else if sortBy = "height" then p.height
  else p.mass

/-- The comparator passed to `people.sort` (src/index.js lines 122-127). -/
def peopleComparator (sortBy sortOrder : String) (a b : Person) : Int :=
  if sortOrder = "asc" then localeCompare (personField sortBy a) (personField sortBy b)
  else localeCompare (personField sortBy b) (personField sortBy a)

/-- The ECMAScript ordering induced by the comparator: `a` may stay no later
than `b` exactly when `comparator a b ≤ 0`. -/
def sortLE (sortBy sortOrder : String) (a b : Person) : Bool :=
  peopleComparator sortBy sortOrder a b ≤ 0

/-- ECMAScript `Array.prototype.sort` with a comparator: a stable sort that
puts `a` no later than `b` whenever `comparator a b ≤ 0`. -/
def jsSortPeople (sortBy sortOrder : String) (l : List Person) : List Person :=
  l.mergeSort (sortLE sortBy sortOrder)

/-- ECMAScript `Array.prototype.sort` sorts in place and returns (a reference
to) the same array: modelled as the pair (return value, contents of the input array
after the call). -/
def jsSortCall (sortBy sortOrder : String) (arr : List Person) :
    List Person × List Person :=
  (jsSortPeople sortBy sortOrder arr, jsSortPeople sortBy sortOrder arr)

/-- One node-cache entry: the stored collection and its expiry instant.
node-cache stores and returns deep clones (`useClones` defaults to `true`),
so the stored value has value semantics: callers mutating what `get` returned
do not affect the store. -/
structure CacheEntry (α : Type) where
  value : α
  expiresAt : Nat
deriving DecidableEq

/-- Embedding of `myCache.get`: the stored value while the entry is fresh, otherwise `none`
("never populated" and "past expiry" are indistinguishable; expiry is checked
lazily on read). -/
def cacheGet {α : Type} (cache : Option (CacheEntry α)) (now : Nat) : Option α :=
  match cache with
  | some e => if now < e.expiresAt then some e.value else none
  | none => none

/-- The TTL passed to `myCache.set(…, 300)` (5 minutes, in seconds). -/
def CACHE_TTL : Nat := 300

/-- What an endpoint handler sends back. -/
inductive ApiResponse (α : Type) where
  | badRequest (msg : String)
  | serverError
  | ok (count : Nat) (results : List α)
deriving DecidableEq

/-- One request handled: the response, the cache state afterwards, and how
many upstream HTTP requests were issued while serving it. -/
structure HandlerStep (α : Type) where
  response : ApiResponse α
  cacheAfter : Option (CacheEntry (List α))
  upstreamCalls : Nat
deriving DecidableEq

/-- The /people route handler (src/index.js lines 100-138), as a function of the
query parameters, the upstream, the current time and the cache state.  The
cache is set with the freshly fetched (still unsorted) collection before the
in-place sort runs, and node-cache stores a clone of it. -/
def peopleHandler (S : Nat) (fetchPage : Nat → Option (PagedEnvelope Person))
    (qSortBy qSortOrder : Option String) (now : Nat)
    (cache : Option (CacheEntry (List Person))) : HandlerStep Person :=
  let sortBy := qSortBy.getD "name"
  let sortOrder := qSortOrder.getD "asc"
  if sortBy ∉ VALID_SORT_BY then
    ⟨.badRequest "Invalid sortBy parameter", cache, 0⟩
  else if sortOrder ∉ VALID_SORT_ORDER then
    ⟨.badRequest "Invalid sortOrder parameter", cache, 0⟩
  else
    let cached := (cacheGet cache now).getD []
    if cached.length = 0 then
      match fetchAllPages fetchPage S with
      | none => ⟨.serverError, cache, fetchAllCalls fetchPage S⟩
      | some people =>
        let sorted := jsSortPeople sortBy sortOrder people
        ⟨.ok sorted.length sorted, some ⟨people, now + CACHE_TTL⟩,
          fetchAllCalls fetchPage S⟩
    else
      let sorted := jsSortPeople sortBy sortOrder cached
      ⟨.ok sorted.length sorted, cache, 0⟩

/-- The /planets route handler (src/index.js lines 141-160). -/
def planetsHandler (S : Nat) (fetchPage : Nat → Option (PagedEnvelope Planet))
    (lookup : String → Option String) (now : Nat)
    (cache : Option (CacheEntry (List Planet))) : HandlerStep Planet :=
  let cached := (cacheGet cache now).getD []
  if cached.length = 0 then
    match fetchAllPages fetchPage S with
    | none => ⟨.serverError, cache, fetchAllCalls fetchPage S⟩
    | some planets =>
      let resolved := fetchResidentsWithErrorHandling lookup planets
      ⟨.ok resolved.length resolved, some ⟨resolved, now + CACHE_TTL⟩,
        fetchAllCalls fetchPage S + (allResidentUrls planets).length⟩
  else
    ⟨.ok cached.length cached, cache, 0⟩

/-- The `count` field of an `ok` response. -/
def okCount {α : Type} : ApiResponse α → Option Nat
  | .ok c _ => some c
  | _ => none

/-- The length of the `results` field of an `ok` response. -/
def okResultsLength {α : Type} : ApiResponse α → Option Nat
  | .ok _ rs => some rs.length
  | _ => none

/-! ### Lemmas about `fetchAllPages` -/

/-- Ceiling property of `Math.ceil(count / S)` computed as `(count + S - 1) / S`:
the pages jointly cover at least `count` items. -/
theorem le_ceil_mul (n S : Nat) (hS : 0 < S) : n ≤ ((n + S - 1) / S) * S := by
  have key : ∀ A r : Nat, A + r = n + S - 1 → r < S → n ≤ A := by
    intro A r h1 h2
    omega
  refine key _ ((n + S - 1) % S) ?_ (Nat.mod_lt _ hS)
  rw [Nat.mul_comm]
  exact Nat.div_add_mod _ _

/-- When the code computes no remaining pages, the whole collection fits in
page 1. -/
theorem length_le_of_rem_zero (n S : Nat) (hS : 0 < S)
    (h : remainingPagesCount n S = 0) : n ≤ S := by
  unfold remainingPagesCount at h
  have hq : (n + S - 1) / S ≤ 1 := by omega
  have hceil := le_ceil_mul n S hS
  rcases Nat.le_one_iff_eq_zero_or_eq_one.mp hq with h0 | h1
  · rw [h0] at hceil
    simp at hceil
    omega
  · rw [h1] at hceil
    simpa using hceil

/-- Splitting a list into `m` consecutive chunks of size `S` and flattening
them gives the list back, provided the chunks cover its length. -/
theorem flatten_chunks {α : Type} (S : Nat) :
    ∀ (m : Nat) (l : List α), l.length ≤ m * S →
      ((List.range m).map fun i => (l.drop (i * S)).take S).flatten = l := by
  intro m
  induction m with
  | zero =>
    intro l h
    simp only [Nat.zero_mul, Nat.le_zero] at h
    simp [List.eq_nil_of_length_eq_zero h]
  | succ m ih =>
    intro l h
    rw [List.range_succ_eq_map, List.map_cons, List.flatten_cons, List.map_map]
    have hstep : ∀ i ∈ List.range m,
        ((fun i => (l.drop (i * S)).take S) ∘ Nat.succ) i
          = ((l.drop S).drop (i * S)).take S := by
      intro i _
      simp only [Function.comp_apply]
      rw [Nat.succ_mul, Nat.add_comm (i * S) S, ← List.drop_drop]
    rw [List.map_congr_left hstep]
    have hlen : (l.drop S).length ≤ m * S := by
      rw [List.length_drop]
      rw [Nat.succ_mul] at h
      have t : ∃ t, m * S = t := ⟨_, rfl⟩
      obtain ⟨t, ht⟩ := t
      rw [ht] at h ⊢
      omega
    rw [ih (l.drop S) hlen]
    simp

/-- Modelled `Promise.all` over a list of already-resolved promises resolves to the
list of their values, in the original order. -/
theorem seqOptions_map_some {α β : Type} (f : α → β) :
    ∀ l : List α, seqOptions (l.map fun x => some (f x)) = some (l.map f)
  | [] => rfl
  | x :: xs => by
    simp [seqOptions, seqOptions_map_some f xs]

/-- Reassembling the pages after page 1 recovers the whole collection. -/
theorem take_append_flatten {α : Type} (S rem : Nat) (l : List α)
    (hcov : l.length ≤ (rem + 1) * S) :
    l.take S ++ ((List.range rem).map fun i => (l.drop ((i + 1) * S)).take S).flatten
      = l := by
  have h := flatten_chunks S (rem + 1) l hcov
  rw [List.range_succ_eq_map, List.map_cons, List.flatten_cons, List.map_map] at h
  simp only [Nat.zero_mul, List.drop_zero] at h
  have hmap2 : (List.range rem).map (fun i => (l.drop ((i + 1) * S)).take S)
      = (List.range rem).map ((fun i => (l.drop (i * S)).take S) ∘ Nat.succ) := by
    apply List.map_congr_left
    intro i _
    simp [Function.comp_apply, Nat.succ_eq_add_one]
  rw [hmap2]
  exact h

/-- C3 (main lemma): over a well-formed paginated upstream with positive page
size, `fetchAllPages` returns exactly the ground-truth collection. -/
theorem fetchAllPages_pagedUpstream {α : Type} (l : List α) (S : Nat)
    (hS : 0 < S) :
    fetchAllPages (pagedUpstream l S) S = some l := by
  have h1 : pagedUpstream l S 1 = some ⟨l.length, l.take S⟩ := by
    simp [pagedUpstream]
  by_cases hrem : remainingPagesCount l.length S > 0
  · have hmap : (List.range (remainingPagesCount l.length S)).map
        (fun i => pagedUpstream l S (i + 2))
        = (List.range (remainingPagesCount l.length S)).map
          (fun i => some ((fun i =>
            (⟨l.length, (l.drop ((i + 1) * S)).take S⟩ : PagedEnvelope α)) i)) := by
      apply List.map_congr_left
      intro i _
      have harg : i + 2 - 1 = i + 1 := by omega
      simp [pagedUpstream, harg]
    have hcov : l.length ≤ (remainingPagesCount l.length S + 1) * S := by
      have hceil := le_ceil_mul l.length S hS
      unfold remainingPagesCount at hrem ⊢
      generalize hgen : (l.length + S - 1) / S = c at hrem hceil ⊢
      have hc : c - 1 + 1 = c := by omega
      rw [hc]
      exact hceil
    simp only [fetchAllPages, h1, Option.bind_eq_bind, Option.some_bind]
    rw [if_pos hrem, hmap, seqOptions_map_some]
    simp only [Option.some_bind, List.map_map, Function.comp_def]
    rw [take_append_flatten S _ l hcov]
    rfl
  · have hzero : remainingPagesCount l.length S = 0 := by omega
    have hle := length_le_of_rem_zero l.length S hS hzero
    simp only [fetchAllPages, h1, Option.bind_eq_bind, Option.some_bind]
    rw [if_neg hrem]
    simp [List.take_of_length_le hle]

/-! ### Lemmas about `fetchResidentsWithErrorHandling` -/

/-- The per-planet resolved resident list: every original token mapped, in
place, to its resolved value or `"Unknown"`. -/
def resolvedResidents (lookup : String → Option String) (p : Planet) : List String :=
  p.residents.map (resolveTok lookup)

/-- Rewriting `residentResults` through the `flatMap`: each planet block of
URL results, planet by planet. -/
theorem residentResults_eq (lookup : String → Option String) (planets : List Planet) :
    residentResults lookup planets
      = (indexedFrom 0 planets).flatMap fun ip =>
          ip.2.residents.map fun url => (ip.1, resolveTok lookup url) := by
  unfold residentResults allResidentUrls
  rw [List.map_flatMap]
  simp [List.map_map, Function.comp_def]

/-- Folding the block of one planet into the accumulator object appends the
names of that planet, in block order, under its key only. -/
theorem groupFold_block (i : Nat) (names : List String) :
    ∀ (acc : Nat → List String) (j : Nat),
      ((names.map fun n => (i, n)).foldl
        (fun acc r => fun j => if j = r.1 then acc j ++ [r.2] else acc j) acc) j
        = if j = i then acc j ++ names else acc j := by
  induction names with
  | nil =>
    intro acc j
    by_cases hj : j = i <;> simp [hj]
  | cons n rest ih =>
    intro acc j
    simp only [List.map_cons, List.foldl_cons]
    rw [ih]
    by_cases hj : j = i <;> simp [hj]

/-- Folding all blocks (planet `k` onwards) into the accumulator: planet
the key of planet `j` receives exactly the resolved residents of planet `j`, in order. -/
theorem groupFold_blocks (lookup : String → Option String) :
    ∀ (planets : List Planet) (k : Nat) (acc : Nat → List String) (j : Nat),
      (((indexedFrom k planets).flatMap fun ip =>
          ip.2.residents.map fun url => (ip.1, resolveTok lookup url)).foldl
        (fun acc r => fun j => if j = r.1 then acc j ++ [r.2] else acc j) acc) j
        = acc j ++ (if k ≤ j then
            ((planets.get? (j - k)).map (resolvedResidents lookup)).getD []
          else []) := by
  intro planets
  induction planets with
  | nil =>
    intro k acc j
    by_cases hk : k ≤ j <;> simp [indexedFrom, hk]
  | cons p rest ih =>
    intro k acc j
    simp only [indexedFrom, List.flatMap_cons, List.foldl_append]
    have hblock : (p.residents.map fun url => (k, resolveTok lookup url))
        = ((p.residents.map (resolveTok lookup)).map fun n => (k, n)) := by
      simp [List.map_map, Function.comp_def]
    rw [hblock, ih]
    have hone := groupFold_block k (p.residents.map (resolveTok lookup)) acc j
    rw [hone]
    rcases Nat.lt_trichotomy j k with hlt | heq | hgt
    · have h1 : ¬ (k + 1 ≤ j) := by omega
      have h2 : ¬ (k ≤ j) := by omega
      have h3 : j ≠ k := by omega
      simp [h1, h2, h3]
    · subst heq
      have h1 : ¬ (j + 1 ≤ j) := by omega
      have h2 : j - j = 0 := by omega
      simp [h1, h2, resolvedResidents]
    · have h1 : j ≠ k := by omega
      have h2 : k + 1 ≤ j := by omega
      have h3 : k ≤ j := by omega
      have h4 : j - k = (j - (k + 1)) + 1 := by omega
      simp [h1, h2, h3, h4]

/-- The grouped object, read at key `j`, is the resolved resident list of planet `j`
(or `[]` when there is no planet `j`). -/
theorem groupByPlanet_spec (lookup : String → Option String)
    (planets : List Planet) (j : Nat) :
    groupByPlanet (residentResults lookup planets) j
      = ((planets.get? j).map (resolvedResidents lookup)).getD [] := by
  unfold groupByPlanet
  rw [residentResults_eq, groupFold_blocks lookup planets 0 (fun _ => []) j]
  simp

/-- Rebuilding the planets from the grouped object is the same as mapping
the resident list of each planet in place. -/
theorem indexedFrom_rebuild (lookup : String → Option String)
    (g : Nat → List String) :
    ∀ (planets : List Planet) (k : Nat),
      (∀ j, g (k + j) = ((planets.get? j).map (resolvedResidents lookup)).getD [])
      → (indexedFrom k planets).map (fun ip => { ip.2 with residents := g ip.1 })
          = planets.map fun p => { p with residents := resolvedResidents lookup p } := by
  intro planets
  induction planets with
  | nil => intro k _; rfl
  | cons p rest ih =>
    intro k hg
    simp only [indexedFrom, List.map_cons]
    have h0 : g k = resolvedResidents lookup p := by
      have := hg 0
      simpa using this
    rw [h0, ih (k + 1)]
    intro j
    have := hg (j + 1)
    have harg : k + (j + 1) = k + 1 + j := by omega
    rw [harg] at this
    simpa using this

/-- Main refinement of the resolver: `fetchResidentsWithErrorHandling` maps
the resident list of every record positionally through
`url ↦ (lookup url).getD "Unknown"` and changes nothing else. -/
theorem fetchResidents_spec (lookup : String → Option String)
    (planets : List Planet) :
    fetchResidentsWithErrorHandling lookup planets
      = planets.map fun p => { p with residents := resolvedResidents lookup p } := by
  unfold fetchResidentsWithErrorHandling
  apply indexedFrom_rebuild lookup _ planets 0
  intro j
  simpa using groupByPlanet_spec lookup planets j

/-! ### Lemmas about the sort stage -/

/-- The modelled `localeCompare` is non-positive exactly when the first string
is at most the second. -/
theorem localeCompare_le_iff (a b : String) : localeCompare a b ≤ 0 ↔ a ≤ b := by
  unfold localeCompare
  rcases lt_trichotomy a b with h | h | h
  · rw [if_pos h]
    simp [h.le]
  · subst h
    simp
  · rw [if_neg (not_lt_of_gt h), if_pos h]
    simp [not_le_of_gt h]

/-- The comparator-induced Boolean order, unfolded to string comparison on the
selected field (in the requested direction). -/
theorem sortLE_iff (sb so : String) (a b : Person) :
    sortLE sb so a b = true ↔
      (if so = "asc" then personField sb a ≤ personField sb b
       else personField sb b ≤ personField sb a) := by
  unfold sortLE peopleComparator
  by_cases h : so = "asc" <;> simp [h, localeCompare_le_iff]

/-- The comparator-induced order is transitive (for every field/direction). -/
theorem sortLE_trans (sb so : String) (a b c : Person)
    (hab : sortLE sb so a b = true) (hbc : sortLE sb so b c = true) :
    sortLE sb so a c = true := by
  rw [sortLE_iff] at hab hbc ⊢
  by_cases h : so = "asc"
  · rw [if_pos h] at hab hbc ⊢
    exact le_trans hab hbc
  · rw [if_neg h] at hab hbc ⊢
    exact le_trans hbc hab

/-- The comparator-induced order is total (for every field/direction). -/
theorem sortLE_total (sb so : String) (a b : Person) :
    (sortLE sb so a b || sortLE sb so b a) = true := by
  rw [Bool.or_eq_true, sortLE_iff, sortLE_iff]
  by_cases h : so = "asc" <;> simp [h] <;> exact le_total _ _

/-! ### Lemmas about the route handlers and the cache -/

/-- Every `fetchAllPages` run issues at least the page-1 request. -/
theorem fetchAllCalls_pos {α : Type} (f : Nat → Option (PagedEnvelope α))
    (S : Nat) : 0 < fetchAllCalls f S := by
  unfold fetchAllCalls
  cases f 1 <;> simp

/-- A fresh cache entry is served as stored. -/
theorem cacheGet_fresh {α : Type} (e : CacheEntry α) (now : Nat)
    (h : now < e.expiresAt) : cacheGet (some e) now = some e.value := by
  simp [cacheGet, h]

/-- `/people` on a fresh, non-empty cache entry: the response is the sorted
cached collection, the cache is untouched, and no upstream call is made. -/
theorem peopleHandler_hit (S : Nat) (u : Nat → Option (PagedEnvelope Person))
    (qSb qSo : Option String) (now : Nat) (entry : CacheEntry (List Person))
    (hsb : qSb.getD "name" ∈ VALID_SORT_BY)
    (hso : qSo.getD "asc" ∈ VALID_SORT_ORDER)
    (hfresh : now < entry.expiresAt) (hne : entry.value.length ≠ 0) :
    peopleHandler S u qSb qSo now (some entry)
      = ⟨.ok (jsSortPeople (qSb.getD "name") (qSo.getD "asc") entry.value).length
            (jsSortPeople (qSb.getD "name") (qSo.getD "asc") entry.value),
         some entry, 0⟩ := by
  unfold peopleHandler
  rw [if_neg (not_not_intro hsb), if_neg (not_not_intro hso),
    cacheGet_fresh entry now hfresh]
  simp only [Option.getD_some]
  rw [if_neg hne]

/-- `/people` on a cache miss (absent, expired, or empty) with a successful
fetch: the response is the sorted fresh collection, the cache is repopulated
with the unsorted collection, and a full page fan-out is issued. -/
theorem peopleHandler_miss (S : Nat) (u : Nat → Option (PagedEnvelope Person))
    (qSb qSo : Option String) (now : Nat)
    (cache : Option (CacheEntry (List Person))) (people : List Person)
    (hsb : qSb.getD "name" ∈ VALID_SORT_BY)
    (hso : qSo.getD "asc" ∈ VALID_SORT_ORDER)
    (hmiss : (cacheGet cache now).getD [] = [])
    (hfetch : fetchAllPages u S = some people) :
    peopleHandler S u qSb qSo now cache
      = ⟨.ok (jsSortPeople (qSb.getD "name") (qSo.getD "asc") people).length
            (jsSortPeople (qSb.getD "name") (qSo.getD "asc") people),
         some ⟨people, now + CACHE_TTL⟩, fetchAllCalls u S⟩ := by
  unfold peopleHandler
  rw [if_neg (not_not_intro hsb), if_neg (not_not_intro hso), hmiss]
  simp only [List.length_nil, hfetch]
  rw [if_pos trivial]

/-- `/planets` on a fresh, non-empty cache entry: served from the cache with
no upstream call and no cache change. -/
theorem planetsHandler_hit (S : Nat) (u : Nat → Option (PagedEnvelope Planet))
    (lookup : String → Option String) (now : Nat)
    (entry : CacheEntry (List Planet))
    (hfresh : now < entry.expiresAt) (hne : entry.value.length ≠ 0) :
    planetsHandler S u lookup now (some entry)
      = ⟨.ok entry.value.length entry.value, some entry, 0⟩ := by
  unfold planetsHandler
  rw [cacheGet_fresh entry now hfresh]
  simp only [Option.getD_some]
  rw [if_neg hne]

/-- `/planets` on a cache miss (absent, expired, or empty) with a successful
fetch: one full fetch-and-resolve cycle runs and repopulates the cache. -/
theorem planetsHandler_miss (S : Nat) (u : Nat → Option (PagedEnvelope Planet))
    (lookup : String → Option String) (now : Nat)
    (cache : Option (CacheEntry (List Planet))) (ps : List Planet)
    (hmiss : (cacheGet cache now).getD [] = [])
    (hfetch : fetchAllPages u S = some ps) :
    planetsHandler S u lookup now cache
      = ⟨.ok (fetchResidentsWithErrorHandling lookup ps).length
            (fetchResidentsWithErrorHandling lookup ps),
         some ⟨fetchResidentsWithErrorHandling lookup ps, now + CACHE_TTL⟩,
         fetchAllCalls u S + (allResidentUrls ps).length⟩ := by
  unfold planetsHandler
  rw [hmiss]
  simp only [List.length_nil, hfetch]
  rw [if_pos trivial]

/-! ### Claim C1 -/

/-- Dropping the planet tags from the tagged URL blocks leaves the plain
concatenation of the resident lists. -/
theorem indexedFrom_flatMap_snd :
    ∀ (planets : List Planet) (k : Nat),
      ((indexedFrom k planets).flatMap fun ip => ip.2.residents)
        = ((planets.map fun p => p.residents).flatten) := by
  intro planets
  induction planets with
  | nil => intro k; rfl
  | cons p rest ih =>
    intro k
    simp only [indexedFrom, List.flatMap_cons, List.map_cons, List.flatten_cons]
    rw [ih (k + 1)]

/-- The lookup sequence of the resolver is exactly the concatenation of all
resident lists. -/
theorem residentRequests_eq (planets : List Planet) :
    residentRequests planets = (planets.map fun p => p.residents).flatten := by
  unfold residentRequests allResidentUrls
  rw [List.map_flatMap]
  have hinner : ∀ ip : Nat × Planet,
      ((ip.2.residents.map fun url => (ip.1, url)).map fun q => q.2)
        = ip.2.residents := by
    intro ip
    simp [List.map_map, Function.comp_def]
  simp only [hinner]
  exact indexedFrom_flatMap_snd planets 0

/-- C1 counterexample: with two records each referencing the same token
`"T"`, the resolver issues two upstream lookups for `"T"`, not the single
lookup the claim asserts. -/
theorem c1_counterexample :
    (residentRequests [⟨["T"], "a"⟩, ⟨["T"], "b"⟩]).count "T" = 2
    ∧ ¬ ((residentRequests [⟨["T"], "a"⟩, ⟨["T"], "b"⟩]).count "T" = 1) := by
  decide

/-- C1 (amended): the resolver does not deduplicate: it issues exactly one
upstream lookup per occurrence — its lookup sequence is the concatenation of
all resident lists, so a token occurring `k` times is fetched `k`
times. -/
theorem c1_lookup_per_occurrence (planets : List Planet) (T : String) :
    residentRequests planets = (planets.map fun p => p.residents).flatten
    ∧ (residentRequests planets).count T
        = ((planets.map fun p => p.residents).flatten).count T := by
  refine ⟨residentRequests_eq planets, ?_⟩
  rw [residentRequests_eq planets]

/-! ### Claim C3 -/

/-- C3: over any well-formed paginated upstream (ground truth `l`, positive
page size `S`, reported count `l.length`), `fetchAllPages` returns exactly
the ground-truth collection: `totalCount` records, in page-then-within-page
order, with no duplicate and no omission. -/
theorem c3_fetchAll_complete {α : Type} (l : List α) (S : Nat) (hS : 0 < S) :
    fetchAllPages (pagedUpstream l S) S = some l
    ∧ (fetchAllPages (pagedUpstream l S) S).map List.length = some l.length := by
  refine ⟨fetchAllPages_pagedUpstream l S hS, ?_⟩
  rw [fetchAllPages_pagedUpstream l S hS]
  rfl

/-- C3 witness: a 3-record collection with page size 2 (two pages). -/
theorem c3_witness :
    0 < 2
    ∧ (fetchAllPages
        (pagedUpstream [(⟨"x", "1", "2", 0⟩ : Person), ⟨"y", "3", "4", 1⟩,
          ⟨"z", "5", "6", 2⟩] 2) 2
        = some [⟨"x", "1", "2", 0⟩, ⟨"y", "3", "4", 1⟩, ⟨"z", "5", "6", 2⟩]
      ∧ (fetchAllPages
          (pagedUpstream [(⟨"x", "1", "2", 0⟩ : Person), ⟨"y", "3", "4", 1⟩,
            ⟨"z", "5", "6", 2⟩] 2) 2).map List.length = some 3) :=
  ⟨by decide,
   c3_fetchAll_complete (α := Person) [⟨"x", "1", "2", 0⟩, ⟨"y", "3", "4", 1⟩,
     ⟨"z", "5", "6", 2⟩] 2 (by decide)⟩

/-! ### Claim C4 -/

/-- C4: the resolver never fails: it returns one output record per input
record no matter which lookups fail, and a link whose lookup failed is
replaced by exactly `"Unknown"` at its original position in the reference
list of its record. -/
theorem c4_resolver_never_fails (lookup : String → Option String)
    (planets : List Planet) (i j : Nat) (p : Planet) (u : String)
    (hp : planets.get? i = some p) (hu : p.residents.get? j = some u)
    (hl : lookup u = none) :
    (fetchResidentsWithErrorHandling lookup planets).length = planets.length
    ∧ ((fetchResidentsWithErrorHandling lookup planets).get? i).map
        (fun q => q.residents.get? j) = some (some "Unknown") := by
  rw [fetchResidents_spec]
  refine ⟨List.length_map planets _, ?_⟩
  rw [List.get?_map, hp]
  show some ((resolvedResidents lookup p).get? j) = some (some "Unknown")
  unfold resolvedResidents
  rw [List.get?_map, hu]
  show some (some (resolveTok lookup u)) = some (some "Unknown")
  unfold resolveTok
  rw [hl]
  rfl

/-- C4 witness: one record with residents `["A", "B"]` and a lookup that
fails on everything: position 1 becomes `"Unknown"`. -/
theorem c4_witness :
    (([(⟨["A", "B"], "r"⟩ : Planet)].get? 0 = some ⟨["A", "B"], "r"⟩
      ∧ (["A", "B"] : List String).get? 1 = some "B"
      ∧ (fun _ : String => (none : Option String)) "B" = none)
    ∧ ((fetchResidentsWithErrorHandling (fun _ => none) [⟨["A", "B"], "r"⟩]).length
        = 1
      ∧ ((fetchResidentsWithErrorHandling (fun _ => none)
            [⟨["A", "B"], "r"⟩]).get? 0).map (fun q => q.residents.get? 1)
        = some (some "Unknown"))) :=
  ⟨⟨by decide, by decide, rfl⟩,
   c4_resolver_never_fails (fun _ => none) [⟨["A", "B"], "r"⟩] 0 1
     ⟨["A", "B"], "r"⟩ "B" (by decide) (by decide) rfl⟩

/-! ### Claim C5 -/

/-- Modelled `Promise.all` rejects as soon as one of its promises rejects. -/
theorem seqOptions_eq_none {β : Type} :
    ∀ (os : List (Option β)), none ∈ os → seqOptions os = none := by
  intro os
  induction os with
  | nil => intro h; simp at h
  | cons o rest ih =>
    intro h
    rcases List.mem_cons.mp h with h0 | h1
    · rw [← h0]
      rfl
    · cases o with
      | none => rfl
      | some x => simp [seqOptions, ih h1]

/-- C5: page fetching is all-or-nothing: if the first page fails, or any of
the remaining pages requested during assembly fails, `fetchAllPages` returns
`none` — no partial collection is ever produced (the thrown error reaches the
catch block of the route, which answers with a server error). -/
theorem c5_all_or_nothing {α : Type} (f : Nat → Option (PagedEnvelope α))
    (S : Nat) (e : PagedEnvelope α) (i : Nat) :
    (f 1 = none → fetchAllPages f S = none)
    ∧ (f 1 = some e
       → i ∈ (List.range (remainingPagesCount e.count S)).map (fun n => n + 2)
       → f i = none
       → fetchAllPages f S = none) := by
  constructor
  · intro h1
    unfold fetchAllPages
    rw [h1]
    rfl
  · intro h1 hmem hfail
    unfold fetchAllPages
    rw [h1]
    obtain ⟨n, hn, hi⟩ := List.mem_map.mp hmem
    have hrem : remainingPagesCount e.count S > 0 := by
      have := List.mem_range.mp hn
      omega
    have hnone : seqOptions
        ((List.range (remainingPagesCount e.count S)).map fun n => f (n + 2))
        = none := by
      apply seqOptions_eq_none
      refine List.mem_map.mpr ⟨n, hn, ?_⟩
      rw [hi, hfail]
    simp only [Option.bind_eq_bind, Option.some_bind]
    rw [if_pos hrem, hnone]
    rfl

/-- C5 witness: a 3-record, page-size-1 upstream whose page 2 fails: the
whole fetch fails. -/
theorem c5_witness :
    ((fun p => if p = 1
        then some (⟨3, [(⟨["A"], "r"⟩ : Planet)]⟩ : PagedEnvelope Planet)
        else none) 1 = some ⟨3, [⟨["A"], "r"⟩]⟩
      ∧ 2 ∈ (List.range (remainingPagesCount 3 1)).map (fun n => n + 2)
      ∧ (fun p => if p = 1
          then some (⟨3, [(⟨["A"], "r"⟩ : Planet)]⟩ : PagedEnvelope Planet)
          else none) 2 = none)
    ∧ fetchAllPages (fun p => if p = 1
        then some (⟨3, [(⟨["A"], "r"⟩ : Planet)]⟩ : PagedEnvelope Planet)
        else none) 1 = none :=
  ⟨⟨rfl, by decide, rfl⟩,
   (c5_all_or_nothing (fun p => if p = 1
      then some (⟨3, [(⟨["A"], "r"⟩ : Planet)]⟩ : PagedEnvelope Planet)
      else none) 1 ⟨3, [⟨["A"], "r"⟩]⟩ 2).2 rfl (by decide) rfl⟩

/-! ### Claim C6 -/

/-- C6: resolution is a strict 1:1 positional rewrite: the resolved
list of record `i` has the same length as its original link list, entry `j` of it is
exactly the resolution of original entry `j`, and every field other than the
reference field is unchanged. -/
theorem c6_positional_rewrite (lookup : String → Option String)
    (planets : List Planet) (i j : Nat) (p : Planet)
    (hp : planets.get? i = some p) :
    ((fetchResidentsWithErrorHandling lookup planets).get? i).map
        (fun q => q.residents.length) = some p.residents.length
    ∧ ((fetchResidentsWithErrorHandling lookup planets).get? i).map
        (fun q => q.residents.get? j)
        = some ((p.residents.get? j).map (resolveTok lookup))
    ∧ ((fetchResidentsWithErrorHandling lookup planets).get? i).map
        (fun q => q.rest) = some p.rest := by
  rw [fetchResidents_spec, List.get?_map, hp]
  refine ⟨?_, ?_, rfl⟩
  · simp [resolvedResidents]
  · simp [resolvedResidents, List.get?_map]

/-- C6 witness: one record, residents `["A", "B"]`, `"A"` resolving to
`"Leia Organa"` and `"B"` failing. -/
theorem c6_witness :
    ([(⟨["A", "B"], "r"⟩ : Planet)].get? 0 = some ⟨["A", "B"], "r"⟩)
    ∧ (((fetchResidentsWithErrorHandling
          (fun u => if u = "A" then some "Leia Organa" else none)
          [⟨["A", "B"], "r"⟩]).get? 0).map (fun q => q.residents.length)
        = some (["A", "B"] : List String).length
      ∧ ((fetchResidentsWithErrorHandling
          (fun u => if u = "A" then some "Leia Organa" else none)
          [⟨["A", "B"], "r"⟩]).get? 0).map (fun q => q.residents.get? 0)
        = some (((["A", "B"] : List String).get? 0).map
            (resolveTok fun u => if u = "A" then some "Leia Organa" else none))
      ∧ ((fetchResidentsWithErrorHandling
          (fun u => if u = "A" then some "Leia Organa" else none)
          [⟨["A", "B"], "r"⟩]).get? 0).map (fun q => q.rest) = some "r") :=
  ⟨by decide,
   c6_positional_rewrite (fun u => if u = "A" then some "Leia Organa" else none)
     [⟨["A", "B"], "r"⟩] 0 0 ⟨["A", "B"], "r"⟩ (by decide)⟩

/-! ### Claim C2 -/

/-- C2 counterexample: `Array.prototype.sort` sorts in place: after the sort
call on a two-element out-of-order array, the array contents are no longer
the original input, refuting "leaves its input sequence unchanged". -/
theorem c2_counterexample :
    ¬ ((jsSortCall "name" "asc" [⟨"b", "1", "2", 0⟩, ⟨"a", "1", "2", 0⟩]).2
        = [⟨"b", "1", "2", 0⟩, ⟨"a", "1", "2", 0⟩]) := by
  intro h
  have hsorted := List.sorted_mergeSort
    (sortLE_trans "name" "asc") (sortLE_total "name" "asc")
    [⟨"b", "1", "2", 0⟩, ⟨"a", "1", "2", 0⟩]
  have h2 : (jsSortCall "name" "asc" [⟨"b", "1", "2", 0⟩, ⟨"a", "1", "2", 0⟩]).2
      = List.mergeSort [⟨"b", "1", "2", 0⟩, ⟨"a", "1", "2", 0⟩]
          (sortLE "name" "asc") := rfl
  rw [h2] at h
  rw [h] at hsorted
  have hle : sortLE "name" "asc" ⟨"b", "1", "2", 0⟩ ⟨"a", "1", "2", 0⟩ = true :=
    (List.pairwise_cons.mp hsorted).1 _ (List.mem_cons_self _ _)
  rw [sortLE_iff] at hle
  simp only [if_pos rfl, personField] at hle
  rw [String.le_iff_toList_le] at hle
  revert hle
  decide

/-- C2 (amended): the sort stage sorts in place — after the call the input
array holds the returned (sorted) sequence, not its original contents — but
the collection stored in the cache is still never reordered by serving a
sorted request: a cache-hit request leaves the cache entry unchanged, and a
populating request stores the unsorted fetched collection while responding
with the sorted one (node-cache stores clones, and `set` runs before the
in-place sort). -/
theorem c2_sort_in_place_cache_safe (sb so : String) (arr : List Person)
    (S : Nat) (u : Nat → Option (PagedEnvelope Person))
    (qSb qSo : Option String) (now : Nat) (entry : CacheEntry (List Person))
    (people : List Person)
    (hsb : qSb.getD "name" ∈ VALID_SORT_BY)
    (hso : qSo.getD "asc" ∈ VALID_SORT_ORDER)
    (hfresh : now < entry.expiresAt) (hne : entry.value.length ≠ 0)
    (hfetch : fetchAllPages u S = some people) :
    (jsSortCall sb so arr).2 = (jsSortCall sb so arr).1
    ∧ (peopleHandler S u qSb qSo now (some entry)).cacheAfter = some entry
    ∧ (peopleHandler S u qSb qSo now none).cacheAfter
        = some ⟨people, now + CACHE_TTL⟩
    ∧ (peopleHandler S u qSb qSo now none).response
        = .ok (jsSortPeople (qSb.getD "name") (qSo.getD "asc") people).length
            (jsSortPeople (qSb.getD "name") (qSo.getD "asc") people) := by
  refine ⟨rfl, ?_, ?_, ?_⟩
  · rw [peopleHandler_hit S u qSb qSo now entry hsb hso hfresh hne]
  · rw [peopleHandler_miss S u qSb qSo now none people hsb hso rfl hfetch]
  · rw [peopleHandler_miss S u qSb qSo now none people hsb hso rfl hfetch]

/-- C2 witness: all hypotheses of the amended statement hold at a concrete
configuration. -/
theorem c2_witness :
    ((none : Option String).getD "name" ∈ VALID_SORT_BY
      ∧ (none : Option String).getD "asc" ∈ VALID_SORT_ORDER
      ∧ 0 < 10
      ∧ ([(⟨"a", "1", "2", 0⟩ : Person)] : List Person).length ≠ 0
      ∧ fetchAllPages (fun _ => some (⟨0, []⟩ : PagedEnvelope Person)) 1
          = some ([] : List Person))
    ∧ ((jsSortCall "name" "asc" []).2 = (jsSortCall "name" "asc" []).1
      ∧ (peopleHandler 1 (fun _ => some ⟨0, []⟩) none none 0
          (some ⟨[⟨"a", "1", "2", 0⟩], 10⟩)).cacheAfter
          = some ⟨[⟨"a", "1", "2", 0⟩], 10⟩
      ∧ (peopleHandler 1 (fun _ => some ⟨0, []⟩) none none 0 none).cacheAfter
          = some ⟨[], 0 + CACHE_TTL⟩
      ∧ (peopleHandler 1 (fun _ => some ⟨0, []⟩) none none 0 none).response
          = .ok (jsSortPeople "name" "asc" []).length
              (jsSortPeople "name" "asc" [])) :=
  ⟨⟨by decide, by decide, by decide, by decide, by decide⟩,
   c2_sort_in_place_cache_safe "name" "asc" [] 1 (fun _ => some ⟨0, []⟩)
     none none 0 ⟨[⟨"a", "1", "2", 0⟩], 10⟩ [] (by decide) (by decide)
     (by decide) (by decide) (by decide)⟩

/-! ### Claim C7 -/

/-- Discriminator for client-error responses. -/
def isBadRequest {α : Type} : ApiResponse α → Bool
  | .badRequest _ => true
  | _ => false

/-- C7: an out-of-allow-list `sortBy` or `sortOrder` is rejected with a
client error before any I/O: the response is a 400, zero upstream calls are
issued, and the cache is left untouched. -/
theorem c7_validation_before_io (S : Nat)
    (u : Nat → Option (PagedEnvelope Person)) (qSb qSo : Option String)
    (now : Nat) (cache : Option (CacheEntry (List Person)))
    (h : qSb.getD "name" ∉ VALID_SORT_BY ∨ qSo.getD "asc" ∉ VALID_SORT_ORDER) :
    isBadRequest (peopleHandler S u qSb qSo now cache).response = true
    ∧ (peopleHandler S u qSb qSo now cache).cacheAfter = cache
    ∧ (peopleHandler S u qSb qSo now cache).upstreamCalls = 0 := by
  by_cases hsb : qSb.getD "name" ∉ VALID_SORT_BY
  · unfold peopleHandler
    rw [if_pos hsb]
    exact ⟨rfl, rfl, rfl⟩
  · have hso : qSo.getD "asc" ∉ VALID_SORT_ORDER := by tauto
    unfold peopleHandler
    rw [if_neg hsb, if_pos hso]
    exact ⟨rfl, rfl, rfl⟩

/-- C7 witness: `GET /people?sortBy=color` at a concrete configuration. -/
theorem c7_witness :
    ((some "color" : Option String).getD "name" ∉ VALID_SORT_BY
      ∨ (none : Option String).getD "asc" ∉ VALID_SORT_ORDER)
    ∧ (isBadRequest (peopleHandler 10 (fun _ => none) (some "color") none 0
          none).response = true
      ∧ (peopleHandler 10 (fun _ => none) (some "color") none 0
          none).cacheAfter = none
      ∧ (peopleHandler 10 (fun _ => none) (some "color") none 0
          none).upstreamCalls = 0) :=
  ⟨Or.inl (by decide),
   c7_validation_before_io 10 (fun _ => none) (some "color") none 0 none
     (Or.inl (by decide))⟩

/-! ### Claim C8 -/

/-- C8 counterexample: with an empty upstream collection, a first `/planets`
request at time 0 successfully populates the cache with entry `⟨[], 300⟩`,
yet a repeat request at time 10 — well inside the TTL window — still issues
an upstream call, contradicting "no additional upstream calls". -/
theorem c8_counterexample :
    (planetsHandler 10 (fun _ => some ⟨0, []⟩) (fun _ => none) 0
        none).cacheAfter = some ⟨[], 300⟩
    ∧ (planetsHandler 10 (fun _ => some ⟨0, []⟩) (fun _ => none) 10
        (some ⟨[], 300⟩)).upstreamCalls ≠ 0 := by
  decide

/-- C8 (amended): provided the populated collection is non-empty, a repeated
`/planets` request inside the TTL window is served from the cache with the
identical stored collection and zero upstream calls; and a request at or
after expiry runs exactly one fresh fetch-and-resolve cycle (a full page
fan-out plus one lookup per resident link) and repopulates the cache.  The
non-emptiness proviso is forced: an empty cached collection is treated as a
miss (see the counterexample and C10). -/
theorem c8_ttl_cache (S : Nat) (u : Nat → Option (PagedEnvelope Planet))
    (lookup : String → Option String) (now later : Nat)
    (entry : CacheEntry (List Planet)) (ps : List Planet)
    (hfresh : now < entry.expiresAt) (hne : entry.value.length ≠ 0)
    (hexp : entry.expiresAt ≤ later) (hfetch : fetchAllPages u S = some ps) :
    planetsHandler S u lookup now (some entry)
      = ⟨.ok entry.value.length entry.value, some entry, 0⟩
    ∧ planetsHandler S u lookup later (some entry)
      = ⟨.ok (fetchResidentsWithErrorHandling lookup ps).length
            (fetchResidentsWithErrorHandling lookup ps),
         some ⟨fetchResidentsWithErrorHandling lookup ps, later + CACHE_TTL⟩,
         fetchAllCalls u S + (allResidentUrls ps).length⟩ := by
  constructor
  · exact planetsHandler_hit S u lookup now entry hfresh hne
  · refine planetsHandler_miss S u lookup later (some entry) ps ?_ hfetch
    have hstale : ¬ (later < entry.expiresAt) := Nat.not_lt.mpr hexp
    simp [cacheGet, hstale]

/-- C8 witness: one non-empty planet collection, fresh hit at time 5, expiry
at 300, refetch at time 300. -/
theorem c8_witness :
    (5 < 300
      ∧ ([(⟨[], "p"⟩ : Planet)] : List Planet).length ≠ 0
      ∧ 300 ≤ 300
      ∧ fetchAllPages (fun _ => some (⟨1, [(⟨[], "p"⟩ : Planet)]⟩ :
          PagedEnvelope Planet)) 10 = some [⟨[], "p"⟩])
    ∧ (planetsHandler 10 (fun _ => some ⟨1, [⟨[], "p"⟩]⟩) (fun _ => none) 5
        (some ⟨[⟨[], "p"⟩], 300⟩)
        = ⟨.ok ([(⟨[], "p"⟩ : Planet)] : List Planet).length [⟨[], "p"⟩],
           some ⟨[⟨[], "p"⟩], 300⟩, 0⟩
      ∧ planetsHandler 10 (fun _ => some ⟨1, [⟨[], "p"⟩]⟩) (fun _ => none) 300
        (some ⟨[⟨[], "p"⟩], 300⟩)
        = ⟨.ok (fetchResidentsWithErrorHandling (fun _ => none)
              [⟨[], "p"⟩]).length
            (fetchResidentsWithErrorHandling (fun _ => none) [⟨[], "p"⟩]),
           some ⟨fetchResidentsWithErrorHandling (fun _ => none) [⟨[], "p"⟩],
             300 + CACHE_TTL⟩,
           fetchAllCalls (fun _ => some (⟨1, [⟨[], "p"⟩]⟩ :
               PagedEnvelope Planet)) 10
             + (allResidentUrls [⟨[], "p"⟩]).length⟩) :=
  ⟨⟨by decide, by decide, by decide, by decide⟩,
   c8_ttl_cache 10 (fun _ => some ⟨1, [⟨[], "p"⟩]⟩) (fun _ => none) 5 300
     ⟨[⟨[], "p"⟩], 300⟩ [⟨[], "p"⟩] (by decide) (by decide) (by decide)
     (by decide)⟩

/-! ### Claim C9 -/

/-- C9: the sort stage is a stable lexicographic sort on the selected field:
the output is a permutation of the input, it is pairwise ordered by the
comparator (lexicographic string comparison on the selected field, in the
requested direction), and records whose selected field equals any given key
keep their relative input order (their key-filtered subsequence is exactly
that of the input). -/
theorem c9_sort_stable (sb so k : String) (l : List Person)
    (hsb : sb ∈ VALID_SORT_BY) (hso : so ∈ VALID_SORT_ORDER) :
    (jsSortPeople sb so l).Perm l
    ∧ (jsSortPeople sb so l).Pairwise (fun a b => peopleComparator sb so a b ≤ 0)
    ∧ (jsSortPeople sb so l).filter (fun p => personField sb p == k)
        = l.filter fun p => personField sb p == k := by
  unfold jsSortPeople
  refine ⟨List.mergeSort_perm l _, ?_, ?_⟩
  · have h := List.sorted_mergeSort
      (sortLE_trans sb so) (sortLE_total sb so) l
    refine h.imp ?_
    intro a b hab
    simpa [sortLE] using hab
  · have hsub : List.Sublist (l.filter fun p => personField sb p == k) l :=
      List.filter_sublist l
    have hpair : (l.filter (fun p => personField sb p == k)).Pairwise
        (fun a b => sortLE sb so a b = true) := by
      apply List.pairwise_of_forall_mem_list
      intro a ha b hb
      have hak : personField sb a = k := by
        have := (List.mem_filter.mp ha).2
        exact eq_of_beq this
      have hbk : personField sb b = k := by
        have := (List.mem_filter.mp hb).2
        exact eq_of_beq this
      rw [sortLE_iff]
      by_cases h2 : so = "asc" <;> simp [h2, hak, hbk]
    have hsl := List.sublist_mergeSort (sortLE_trans sb so) (sortLE_total sb so)
      hpair hsub
    have hfsub := hsl.filter (fun p => personField sb p == k)
    rw [List.filter_filter] at hfsub
    simp only [Bool.and_self] at hfsub
    have hperm := (List.mergeSort_perm l (sortLE sb so)).filter
      (fun p => personField sb p == k)
    exact (hfsub.eq_of_length hperm.length_eq.symm).symm

/-- C9 witness: sorting three records by name ascending, two of which tie on
the key `"a"`. -/
theorem c9_witness :
    ("name" ∈ VALID_SORT_BY ∧ "asc" ∈ VALID_SORT_ORDER)
    ∧ ((jsSortPeople "name" "asc"
          [⟨"b", "9", "9", 0⟩, ⟨"a", "2", "3", 1⟩, ⟨"a", "7", "8", 2⟩]).Perm
        [⟨"b", "9", "9", 0⟩, ⟨"a", "2", "3", 1⟩, ⟨"a", "7", "8", 2⟩]
      ∧ (jsSortPeople "name" "asc"
          [⟨"b", "9", "9", 0⟩, ⟨"a", "2", "3", 1⟩, ⟨"a", "7", "8", 2⟩]).Pairwise
          (fun a b => peopleComparator "name" "asc" a b ≤ 0)
      ∧ (jsSortPeople "name" "asc"
          [⟨"b", "9", "9", 0⟩, ⟨"a", "2", "3", 1⟩, ⟨"a", "7", "8", 2⟩]).filter
          (fun p => personField "name" p == "a")
        = List.filter (fun p => personField "name" p == "a")
            [⟨"b", "9", "9", 0⟩, ⟨"a", "2", "3", 1⟩, ⟨"a", "7", "8", 2⟩]) :=
  ⟨⟨by decide, by decide⟩,
   c9_sort_stable "name" "asc" "a"
     [⟨"b", "9", "9", 0⟩, ⟨"a", "2", "3", 1⟩, ⟨"a", "7", "8", 2⟩]
     (by decide) (by decide)⟩

/-! ### Claim C10 -/

/-- When the stored collection is empty, the read is an effective miss
whatever the clock and expiry are. -/
theorem cacheGet_empty_getD {α : Type} (e now : Nat) :
    (cacheGet (some ⟨([] : List α), e⟩) now).getD [] = [] := by
  rcases Nat.lt_or_ge now e with h | h
  · simp [cacheGet, h]
  · simp [cacheGet, Nat.not_lt.mpr h]

/-- C10: an empty collection is indistinguishable from a cache miss: if the
stored collection is `[]`, both endpoints issue upstream calls on every
request, whatever `now` and the entry expiry are; and in every `ok` response
the `count` field equals the length of its `results` array (never the
upstream-reported count). -/
theorem c10_empty_is_miss (S : Nat) (uP : Nat → Option (PagedEnvelope Planet))
    (uH : Nat → Option (PagedEnvelope Person))
    (lookup : String → Option String) (qSb qSo : Option String)
    (now eP eH : Nat) (cacheP : Option (CacheEntry (List Planet)))
    (cacheH : Option (CacheEntry (List Person))) :
    0 < (planetsHandler S uP lookup now (some ⟨[], eP⟩)).upstreamCalls
    ∧ 0 < (peopleHandler S uH none none now (some ⟨[], eH⟩)).upstreamCalls
    ∧ okCount (planetsHandler S uP lookup now cacheP).response
        = okResultsLength (planetsHandler S uP lookup now cacheP).response
    ∧ okCount (peopleHandler S uH qSb qSo now cacheH).response
        = okResultsLength (peopleHandler S uH qSb qSo now cacheH).response := by
  have hposP := fetchAllCalls_pos uP S
  have hposH := fetchAllCalls_pos uH S
  refine ⟨?_, ?_, ?_, ?_⟩
  · rcases hf : fetchAllPages uP S with _ | ps <;>
      simp [planetsHandler, cacheGet_empty_getD, hf, hposP]
  · rcases hf : fetchAllPages uH S with _ | ps <;>
      simp [peopleHandler, VALID_SORT_BY, VALID_SORT_ORDER,
        cacheGet_empty_getD, hf, hposH]
  · by_cases hc : ((cacheGet cacheP now).getD []).length = 0
    · rcases hf : fetchAllPages uP S with _ | ps <;>
        simp [planetsHandler, hc, hf, okCount, okResultsLength]
    · simp [planetsHandler, hc, okCount, okResultsLength]
  · by_cases hsb : qSb.getD "name" ∉ VALID_SORT_BY
    · simp [peopleHandler, hsb, okCount, okResultsLength]
    · by_cases hso : qSo.getD "asc" ∉ VALID_SORT_ORDER
      · simp [peopleHandler, hsb, hso, okCount, okResultsLength]
      · by_cases hc : ((cacheGet cacheH now).getD []).length = 0
        · rcases hf : fetchAllPages uH S with _ | ps <;>
            simp [peopleHandler, hsb, hso, hc, hf, okCount, okResultsLength]
        · simp [peopleHandler, hsb, hso, hc, okCount, okResultsLength]

end CodeChallenge
